import Mathlib

/-!
Verification of the crypto news digest generator (src/main.py).

Strings are modelled as `List Char`.  Python's `str.lower` is embedded as an
ASCII case map (all configured keywords are ASCII), `in` as the substring
test `hasSub`, `str.strip` as `pyStrip`, and `strftime` zero-padded decimal
rendering as `fmt2`/`fmt4` over the zone-local (Asia/Seoul, UTC+9) civil
timestamp fields of `KstTime`.  The system-clock read inside
`generate_markdown` is embedded as the explicit `KstTime` argument, and the
single HTTP fetch as a `FetchOutcome` value consumed by the pipeline.
-/

namespace CriptoNews

/-- ASCII lowercase map for one character, embedding Python `str.lower`
on the ASCII range. -/
def lowerChar (c : Char) : Char :=
  if 65 ≤ c.toNat ∧ c.toNat ≤ 90 then Char.ofNat (c.toNat + 32) else c

/-- Python `s.lower()` on a string modelled as a character list. -/
def lowerStr (s : List Char) : List Char := s.map lowerChar

/-- The whitespace characters removed by Python `str.strip` (ASCII range). -/
def isPySpace (c : Char) : Bool :=
  c = ' ' || c = '\t' || c = '\n' || c = '\r' || c = Char.ofNat 11 || c = Char.ofNat 12

/-- Python `s.strip()`: remove leading and trailing whitespace. -/
def pyStrip (s : List Char) : List Char :=
  ((s.dropWhile isPySpace).reverse.dropWhile isPySpace).reverse

/-- `isPre p s` holds when `p` is a leading segment of `s` (helper for the
embedding of Python's `in` substring operator). -/
def isPre : List Char → List Char → Bool
  | [], _ => true
  | _ :: _, [] => false
  | a :: as, b :: bs => a == b && isPre as bs

/-- Python substring test `pat in s`. -/
def hasSub (pat : List Char) : List Char → Bool
  | [] => isPre pat []
  | c :: t => isPre pat (c :: t) || hasSub pat t

/-- One feed item after field extraction (src/main.py lines 41-44). -/
structure FeedItem where
  title : List Char
  link : List Char
  description : List Char
  pubDate : List Char
deriving DecidableEq

/-- One filtered article dict (src/main.py lines 51-57). -/
structure MatchedArticle where
  title : List Char
  link : List Char
  desc : List Char
  date : List Char
  keywords : List (List Char)
deriving DecidableEq

/-- One raw `item` element of the feed document: each sub-field is optional
(an absent tag is `none`), mirroring the truthiness tests on `item.title`,
`item.link`, `item.description`, `item.pubDate` in src/main.py lines 41-44. -/
structure RawEntry where
  title : Option (List Char)
  link : Option (List Char)
  description : Option (List Char)
  pubDate : Option (List Char)
deriving DecidableEq

/-- The configured keyword list, src/main.py line 11. -/
def KEYWORDS : List (List Char) :=
  ["Bitcoin".data, "Ethereum".data, "Solana".data, "BTC".data, "ETH".data, "SOL".data]

/-- Field extraction with stripping and defaulting, src/main.py lines 41-44:
each present field is stripped of surrounding whitespace; an absent title
defaults to "No Title", an absent link to "#", an absent description or
pubDate to the empty string. -/
def toFeedItem (e : RawEntry) : FeedItem where
  title := match e.title with | some s => pyStrip s | none => "No Title".data
  link := match e.link with | some s => pyStrip s | none => "#".data
  description := match e.description with | some s => pyStrip s | none => []
  pubDate := match e.pubDate with | some s => pyStrip s | none => []

/-- The lowercase search text, src/main.py line 47:
`(title + " " + description).lower()`. -/
def text_to_check (title description : List Char) : List Char :=
  lowerStr (title ++ " ".data ++ description)

/-- The keyword comprehension, src/main.py line 48:
`[k for k in KEYWORDS if k.lower() in text_to_check]`. -/
def matched_keywords (keywords : List (List Char)) (text : List Char) : List (List Char) :=
  keywords.filter (fun k => hasSub (lowerStr k) text)

/-- Summary truncation, src/main.py line 54:
`description[:200] + "..." if len(description) > 200 else description`. -/
def truncDesc (description : List Char) : List Char :=
  if 200 < description.length then description.take 200 ++ "...".data else description

/-- The per-item filter step, src/main.py lines 47-57: an article dict is
produced exactly when the matched keyword list is non-empty. -/
def processItem (keywords : List (List Char)) (it : FeedItem) : Option MatchedArticle :=
  let mks := matched_keywords keywords (text_to_check it.title it.description)
  if mks = [] then none
  else some ⟨it.title, it.link, truncDesc it.description, it.pubDate, mks⟩

/-- The filtering loop of src/main.py lines 38-59 over already-parsed items. -/
def filterArticles (keywords : List (List Char)) (items : List FeedItem) : List MatchedArticle :=
  items.filterMap (processItem keywords)

/-- A network/transport failure of the single `requests.get` call
(src/main.py lines 28-29): connection failure, timeout, or the
`requests.exceptions.RequestException` raised by `raise_for_status` on a
non-2xx HTTP status.  All are caught by the handler at lines 30-32. -/
inductive NetError where
  | connectionFailure : NetError
  | timeout : NetError
  | httpStatus : Nat → NetError
deriving DecidableEq

/-- The fetched feed document: either malformed at top level or a
well-formed sequence of item entries in document order. -/
inductive RawDoc where
  | malformed : RawDoc
  | wellFormed : List RawEntry → RawDoc
deriving DecidableEq

/-- Result of the single fetch attempt (no retry occurs anywhere). -/
inductive FetchOutcome where
  | failure : NetError → FetchOutcome
  | success : RawDoc → FetchOutcome
deriving DecidableEq

/-- Modelled from the spec: the feed parse step (BeautifulSoup XML parsing,
src/main.py lines 35-36) is external library code not present in src/.
Per spec sections 4.2 and 7, a malformed top-level document yields an empty
item sequence together with a recoverable parse-failure signal (the `Bool`
component), and a well-formed document yields its entries in document order
with per-field defaulting done by `toFeedItem` (which is src/ code). -/
def parseFeed : RawDoc → List FeedItem × Bool
  | RawDoc.malformed => ([], true)
  | RawDoc.wellFormed es => (es.map toFeedItem, false)

/-- src/main.py lines 23-59: on any caught `RequestException` the function
returns the empty list (lines 30-32); otherwise it parses the document and
filters the items with the configured keywords. -/
def fetch_crypto_news (r : FetchOutcome) : List MatchedArticle :=
  match r with
  | FetchOutcome.failure _ => []
  | FetchOutcome.success doc => filterArticles KEYWORDS (parseFeed doc).1

/-- Zone-local civil timestamp fields in the fixed Asia/Seoul (UTC+9) zone,
the value read by `datetime.datetime.now(kst)` at src/main.py line 70. -/
structure KstTime where
  year : Nat
  month : Nat
  day : Nat
  hour : Nat
  minute : Nat
deriving DecidableEq

/-- Decimal digit to character. -/
def digitChar : Nat → Char
  | 0 => '0' | 1 => '1' | 2 => '2' | 3 => '3' | 4 => '4'
  | 5 => '5' | 6 => '6' | 7 => '7' | 8 => '8' | _ => '9'

/-- Decimal rendering of a natural number, most significant digit first
(fuel-structured so that it reduces in the kernel). -/
def natCharsAux : Nat → Nat → List Char
  | 0, _ => []
  | fuel + 1, n =>
    if n < 10 then [digitChar n] else natCharsAux fuel (n / 10) ++ [digitChar (n % 10)]

/-- Python `str(n)` for a natural number. -/
def natChars (n : Nat) : List Char := natCharsAux (n + 1) n

/-- Zero-pad a digit string on the left to width `w` (strftime behaviour). -/
def padZero (w : Nat) (s : List Char) : List Char :=
  List.replicate (w - s.length) '0' ++ s

/-- strftime two-digit field (`%m`, `%d`, `%H`, `%M`). -/
def fmt2 (n : Nat) : List Char := padZero 2 (natChars n)

/-- strftime four-digit year field (`%Y`). -/
def fmt4 (n : Nat) : List Char := padZero 4 (natChars n)

/-- `now.strftime("%Y-%m-%d")`, src/main.py line 72. -/
def date_str (t : KstTime) : List Char :=
  fmt4 t.year ++ "-".data ++ fmt2 t.month ++ "-".data ++ fmt2 t.day

/-- `now.strftime("%H:%M")`, src/main.py line 73. -/
def time_str (t : KstTime) : List Char :=
  fmt2 t.hour ++ ":".data ++ fmt2 t.minute

/-- `period = "Morning" if now.hour < 12 else "Evening"`, src/main.py line 76. -/
def period (t : KstTime) : List Char :=
  if t.hour < 12 then "Morning".data else "Evening".data

/-- `filename = f"{date_str}-{period}-Brief.md"`, src/main.py line 77. -/
def filename (t : KstTime) : List Char :=
  date_str t ++ "-".data ++ period t ++ "-Brief.md".data

/-- Python `sep.join(parts)`. -/
def joinSep (sep : List Char) : List (List Char) → List Char
  | [] => []
  | [x] => x
  | x :: y :: rest => x ++ sep ++ joinSep sep (y :: rest)

/-- A single newline character. -/
def nl : List Char := ['\n']

/-- The YAML front matter and fixed heading block of the digest,
src/main.py lines 80-96 (the f-string assigned to `md_content`). -/
def mdHeader (t : KstTime) : List Char :=
  "---".data ++ nl ++
  "title: \"".data ++ date_str t ++ " ".data ++ period t ++ " Crypto Briefing\"".data ++ nl ++
  "date: ".data ++ date_str t ++ nl ++
  "time: ".data ++ time_str t ++ nl ++
  "tags:".data ++ nl ++
  "  - news".data ++ nl ++
  "  - crypto".data ++ nl ++
  "  - automation".data ++ nl ++
  "---".data ++ nl ++ nl ++
  "# 📅 ".data ++ date_str t ++ " ".data ++ period t ++ " 가상화폐 주요 뉴스".data ++ nl ++ nl ++
  "> **자동화 봇 메시지**: 현재 시각 ".data ++ time_str t ++ " 기준, **".data ++
    joinSep ", ".data KEYWORDS ++ "** 관련 주요 기사를 요약했습니다.".data ++ nl ++ nl ++
  "---".data ++ nl ++ nl

/-- The "no articles" notice appended when the filtered list is empty,
src/main.py line 99. -/
def noArticlesNotice : List Char :=
  nl ++ "### 🚫 관련된 새로운 기사가 없습니다.".data ++ nl

/-- One article section of the digest body, src/main.py lines 103-108. -/
def articleBlock (idx : Nat) (a : MatchedArticle) : List Char :=
  "## ".data ++ natChars idx ++ ". ".data ++ a.title ++ nl ++ nl ++
  "- **관련 키워드**: #".data ++ joinSep " #".data a.keywords ++ nl ++
  "- **발행일**: ".data ++ a.date ++ nl ++
  "- **요약**: ".data ++ a.desc ++ nl ++ nl ++
  "> [🔗 원문 기사 바로가기](".data ++ a.link ++ ")".data ++ nl ++ nl ++
  "---".data ++ nl

/-- The `enumerate(articles, 1)` loop of src/main.py lines 101-108. -/
def articleBlocks : Nat → List MatchedArticle → List Char
  | _, [] => []
  | idx, a :: rest => articleBlock idx a ++ articleBlocks (idx + 1) rest

/-- `generate_markdown`, src/main.py lines 64-110, with the system-clock
read (line 70) embedded as the explicit zone-local timestamp argument.
Returns the pair `(filename, md_content)`. -/
def generate_markdown (articles : List MatchedArticle) (t : KstTime) : List Char × List Char :=
  (filename t,
   mdHeader t ++ (if articles.isEmpty then noArticlesNotice else articleBlocks 1 articles))

/-- The computation performed by `main()` (src/main.py lines 115-120) up to
the file write: fetch/filter, then render. -/
def runPipeline (r : FetchOutcome) (t : KstTime) : List Char × List Char :=
  generate_markdown (fetch_crypto_news r) t

/-- Split a character list into its lines at newline characters
(used to state which lines of the rendered body are level-2 headings). -/
def splitLines : List Char → List (List Char)
  | [] => [[]]
  | c :: rest =>
    match splitLines rest with
    | [] => [[]]
    | l :: ls => if c = '\n' then [] :: l :: ls else (c :: l) :: ls

/-- The Markdown level-2 heading marker. -/
def h2pat : List Char := "## ".data

/-- `safeAtomB a` holds when a mismatch with `h2pat` is forced within `a`
itself, so no extension of `a` to the right can begin with `h2pat`. -/
def safeAtomB : List Char → Bool
  | [] => false
  | [c1] => decide (c1 ≠ '#')
  | [c1, c2] => decide (c1 ≠ '#') || decide (c2 ≠ '#')
  | c1 :: c2 :: c3 :: _ => decide (c1 ≠ '#') || decide (c2 ≠ '#') || decide (c3 ≠ ' ')

/-- No line of `s` begins with the level-2 heading marker. -/
def noH2 (s : List Char) : Prop :=
  ∀ l ∈ splitLines s, isPre h2pat l = false

theorem isPre_iff (p s : List Char) : isPre p s = true ↔ ∃ r, s = p ++ r := by
  induction p generalizing s with
  | nil => simp [isPre]
  | cons a as ih =>
    cases s with
    | nil => simp [isPre]
    | cons b bs =>
      simp only [isPre, Bool.and_eq_true, beq_iff_eq, ih, List.cons_append, List.cons.injEq]
      constructor
      · rintro ⟨rfl, r, rfl⟩
        exact ⟨r, rfl, rfl⟩
      · rintro ⟨r, rfl, rfl⟩
        exact ⟨rfl, r, rfl⟩

theorem hasSub_iff (p s : List Char) : hasSub p s = true ↔ ∃ l r, s = l ++ p ++ r := by
  induction s with
  | nil =>
    rw [hasSub, isPre_iff]
    constructor
    · rintro ⟨r, hr⟩
      exact ⟨[], r, by simpa using hr⟩
    · rintro ⟨l, r, h⟩
      have h' : l ++ p ++ r = [] := h.symm
      simp only [List.append_eq_nil, List.append_assoc] at h'
      exact ⟨[], by simp [h'.2.1]⟩
  | cons c t ih =>
    rw [hasSub, Bool.or_eq_true, ih, isPre_iff]
    constructor
    · rintro (⟨r, hr⟩ | ⟨l, r, hr⟩)
      · exact ⟨[], r, by simpa using hr⟩
      · exact ⟨c :: l, r, by simp [hr]⟩
    · rintro ⟨l, r, hr⟩
      cases l with
      | nil => exact Or.inl ⟨r, by simpa using hr⟩
      | cons x xs =>
        right
        simp only [List.cons_append, List.cons.injEq] at hr
        exact ⟨xs, r, hr.2⟩

theorem processItem_eq_some_iff (K : List (List Char)) (it : FeedItem) :
    (∃ a, processItem K it = some a) ↔
      ∃ k ∈ K, ∃ l r, text_to_check it.title it.description = l ++ lowerStr k ++ r := by
  unfold processItem
  by_cases hE : matched_keywords K (text_to_check it.title it.description) = []
  · rw [if_pos hE]
    simp only [reduceCtorEq, exists_false, false_iff]
    rintro ⟨k, hk, l, r, heq⟩
    have hsub : hasSub (lowerStr k) (text_to_check it.title it.description) = true :=
      (hasSub_iff _ _).mpr ⟨l, r, heq⟩
    have : k ∈ matched_keywords K (text_to_check it.title it.description) :=
      List.mem_filter.mpr ⟨hk, hsub⟩
    rw [hE] at this
    exact absurd this (List.not_mem_nil k)
  · rw [if_neg hE]
    simp only [Option.some.injEq, exists_eq', true_iff]
    obtain ⟨k, hk⟩ := List.exists_mem_of_ne_nil _ hE
    have hk' := List.mem_filter.mp hk
    obtain ⟨l, r, heq⟩ := (hasSub_iff _ _).mp hk'.2
    exact ⟨k, hk'.1, l, r, heq⟩

/-- Claim C1: for every keyword list `K` and every feed item, the item is
included in the filtered output (an article derived from it appears in
`filterArticles K items`) iff at least one element of `K` occurs as a
case-insensitive substring of the search string built by concatenating the
item's title and description with a single space separator. -/
theorem claim_c1 (K : List (List Char)) (items : List FeedItem) (it : FeedItem)
    (hmem : it ∈ items) :
    (∃ a ∈ filterArticles K items, processItem K it = some a) ↔
      ∃ k ∈ K, ∃ l r,
        lowerStr (it.title ++ " ".data ++ it.description) = l ++ lowerStr k ++ r := by
  rw [show (lowerStr (it.title ++ " ".data ++ it.description)) =
      text_to_check it.title it.description from rfl]
  rw [← processItem_eq_some_iff]
  constructor
  · rintro ⟨a, _, ha⟩
    exact ⟨a, ha⟩
  · rintro ⟨a, ha⟩
    refine ⟨a, ?_, ha⟩
    unfold filterArticles
    exact List.mem_filterMap.mpr ⟨it, hmem, ha⟩

theorem claim_c1_witness :
    (∃ a ∈ filterArticles ["BTC".data] [⟨"BTC hits new high".data, "#".data, [], []⟩],
        processItem ["BTC".data] ⟨"BTC hits new high".data, "#".data, [], []⟩ = some a) ↔
      ∃ k ∈ (["BTC".data] : List (List Char)), ∃ l r,
        lowerStr ("BTC hits new high".data ++ " ".data ++ ([] : List Char)) =
          l ++ lowerStr k ++ r :=
  claim_c1 ["BTC".data] [⟨"BTC hits new high".data, "#".data, [], []⟩]
    ⟨"BTC hits new high".data, "#".data, [], []⟩ (by decide)

/-- Claim C2: for every included item, `keywords` is exactly the ordered
subset of the keyword list `K` (in `K`'s declared order, i.e. the filter of
`K`) whose lowercase forms are substrings of the item's lowercase search
text; it is never empty and never contains a non-matching keyword. -/
theorem claim_c2 (K : List (List Char)) (it : FeedItem) (a : MatchedArticle)
    (h : processItem K it = some a) :
    a.keywords = matched_keywords K (text_to_check it.title it.description) ∧
    a.keywords ≠ [] ∧
    List.Sublist a.keywords K ∧
    ∀ k, k ∈ a.keywords ↔
      (k ∈ K ∧ ∃ l r, text_to_check it.title it.description = l ++ lowerStr k ++ r) := by
  unfold processItem at h
  by_cases hE : matched_keywords K (text_to_check it.title it.description) = []
  · rw [if_pos hE] at h
    exact absurd h (by simp)
  · rw [if_neg hE] at h
    have ha := Option.some.inj h
    subst ha
    refine ⟨rfl, hE, ?_, ?_⟩
    · exact List.filter_sublist K
    · intro k
      rw [show matched_keywords K (text_to_check it.title it.description) =
          K.filter (fun k => hasSub (lowerStr k) (text_to_check it.title it.description))
          from rfl]
      rw [List.mem_filter]
      constructor
      · rintro ⟨hk, hs⟩
        exact ⟨hk, (hasSub_iff _ _).mp hs⟩
      · rintro ⟨hk, l, r, heq⟩
        exact ⟨hk, (hasSub_iff _ _).mpr ⟨l, r, heq⟩⟩

theorem claim_c2_witness :
    (MatchedArticle.mk "BTC hits new high".data "#".data [] [] ["BTC".data]).keywords ≠ [] ∧
    List.Sublist
      (MatchedArticle.mk "BTC hits new high".data "#".data [] [] ["BTC".data]).keywords
      ["BTC".data] :=
  ⟨(claim_c2 ["BTC".data] ⟨"BTC hits new high".data, "#".data, [], []⟩
      ⟨"BTC hits new high".data, "#".data, [], [], ["BTC".data]⟩ (by decide)).2.1,
   (claim_c2 ["BTC".data] ⟨"BTC hits new high".data, "#".data, [], []⟩
      ⟨"BTC hits new high".data, "#".data, [], [], ["BTC".data]⟩ (by decide)).2.2.1⟩

/-- Claim C3: for a description of length `d`, if `d <= 200` the summary is
the description unchanged (so its length is `d`); if `d > 200` the summary
is the first 200 characters followed by the 3-character marker "...", for a
total length of 203, truncating by raw character count. -/
theorem claim_c3 (d : List Char) :
    (d.length ≤ 200 → truncDesc d = d ∧ (truncDesc d).length = d.length) ∧
    (200 < d.length →
      truncDesc d = d.take 200 ++ "...".data ∧ (truncDesc d).length = 203) := by
  unfold truncDesc
  constructor
  · intro h
    rw [if_neg (by omega)]
    exact ⟨rfl, rfl⟩
  · intro h
    rw [if_pos h]
    refine ⟨rfl, ?_⟩
    have h3 : ("...".data).length = 3 := rfl
    have ht : (d.take 200).length = 200 := by
      rw [List.length_take]
      omega
    rw [List.length_append, ht, h3]

set_option maxRecDepth 4000 in
theorem claim_c3_witness :
    truncDesc (List.replicate 250 'a') = List.replicate 200 'a' ++ "...".data ∧
    (truncDesc (List.replicate 250 'a')).length = 203 ∧
    truncDesc "short".data = "short".data := by
  refine ⟨?_, ?_, ?_⟩
  · have h := ((claim_c3 (List.replicate 250 'a')).2 (by decide)).1
    rw [h]
    decide
  · exact ((claim_c3 (List.replicate 250 'a')).2 (by decide)).2
  · exact ((claim_c3 "short".data).1 (by decide)).1

/-- Claim C4: rendering is a pure function of its inputs.  With the system
clock read embedded as the explicit timestamp argument, `generate_markdown`
is a Lean function (hence performs no I/O and mutates nothing), and two
calls with equal article lists and equal timestamps produce identical
output pairs (filename and body). -/
theorem claim_c4 (a₁ a₂ : List MatchedArticle) (t₁ t₂ : KstTime)
    (h1 : a₁ = a₂) (h2 : t₁ = t₂) :
    generate_markdown a₁ t₁ = generate_markdown a₂ t₂ := by
  subst h1
  subst h2
  rfl

theorem claim_c4_witness :
    generate_markdown [] ⟨2024, 3, 1, 9, 30⟩ = generate_markdown [] ⟨2024, 3, 1, 9, 30⟩ :=
  claim_c4 [] [] ⟨2024, 3, 1, 9, 30⟩ ⟨2024, 3, 1, 9, 30⟩ rfl rfl

/-- Claim C9: for every parsed feed entry, missing sub-fields are defaulted
rather than raising an error: an absent title defaults to "No Title", an
absent link to "#", an absent description or publish-date to the empty
string. -/
theorem claim_c9 (e : RawEntry) :
    (e.title = none → (toFeedItem e).title = "No Title".data) ∧
    (e.link = none → (toFeedItem e).link = "#".data) ∧
    (e.description = none → (toFeedItem e).description = []) ∧
    (e.pubDate = none → (toFeedItem e).pubDate = []) := by
  refine ⟨fun h => ?_, fun h => ?_, fun h => ?_, fun h => ?_⟩ <;> simp [toFeedItem, h]

theorem claim_c9_witness :
    (toFeedItem ⟨none, none, none, none⟩).title = "No Title".data ∧
    (toFeedItem ⟨none, none, none, none⟩).link = "#".data ∧
    (toFeedItem ⟨none, none, none, none⟩).description = [] ∧
    (toFeedItem ⟨none, none, none, none⟩).pubDate = [] :=
  ⟨(claim_c9 ⟨none, none, none, none⟩).1 rfl,
   (claim_c9 ⟨none, none, none, none⟩).2.1 rfl,
   (claim_c9 ⟨none, none, none, none⟩).2.2.1 rfl,
   (claim_c9 ⟨none, none, none, none⟩).2.2.2 rfl⟩

theorem pyStrip_of_all_space (s : List Char) (h : ∀ c ∈ s, isPySpace c = true) :
    pyStrip s = [] := by
  unfold pyStrip
  have hdrop : s.dropWhile isPySpace = [] := by
    induction s with
    | nil => rfl
    | cons c t ih =>
      rw [List.dropWhile_cons, if_pos (h c (by simp))]
      exact ih (fun d hd => h d (by simp [hd]))
  rw [hdrop]
  rfl

/-- Claim C10: every present field taken from a feed entry is stripped of
leading and trailing whitespace before further use, so keyword matching and
summary truncation (which consume the constructed `FeedItem`) operate on
the stripped description; a whitespace-only description yields the same
`FeedItem` as an empty description. -/
theorem claim_c10 (e : RawEntry) :
    (∀ s, e.title = some s → (toFeedItem e).title = pyStrip s) ∧
    (∀ s, e.link = some s → (toFeedItem e).link = pyStrip s) ∧
    (∀ s, e.description = some s → (toFeedItem e).description = pyStrip s) ∧
    (∀ s, e.pubDate = some s → (toFeedItem e).pubDate = pyStrip s) ∧
    (∀ s, e.description = some s → (∀ c ∈ s, isPySpace c = true) →
      toFeedItem e = toFeedItem { e with description := some [] }) := by
  refine ⟨fun s h => by simp [toFeedItem, h],
          fun s h => by simp [toFeedItem, h],
          fun s h => by simp [toFeedItem, h],
          fun s h => by simp [toFeedItem, h],
          fun s h hsp => ?_⟩
  have hnil : pyStrip s = [] := pyStrip_of_all_space s hsp
  simp [toFeedItem, h, hnil]
  rfl

theorem claim_c10_witness :
    (toFeedItem ⟨some " x ".data, some "#".data, some "   ".data, some []⟩).title =
      pyStrip " x ".data ∧
    toFeedItem ⟨some " x ".data, some "#".data, some "   ".data, some []⟩ =
      toFeedItem ⟨some " x ".data, some "#".data, some [], some []⟩ :=
  ⟨(claim_c10 ⟨some " x ".data, some "#".data, some "   ".data, some []⟩).1 " x ".data rfl,
   (claim_c10 ⟨some " x ".data, some "#".data, some "   ".data, some []⟩).2.2.2.2
     "   ".data rfl (by decide)⟩

/-- Claim C5: parsing a malformed top-level feed document yields an empty
item sequence together with a recoverable parse-failure signal, and the run
continues exactly as for a fetch failure, producing a digest whose body
contains the "no articles" notice. -/
theorem claim_c5 (e : NetError) (t : KstTime) :
    parseFeed RawDoc.malformed = ([], true) ∧
    fetch_crypto_news (FetchOutcome.success RawDoc.malformed) =
      fetch_crypto_news (FetchOutcome.failure e) ∧
    ∃ l r, (runPipeline (FetchOutcome.success RawDoc.malformed) t).2 =
      l ++ noArticlesNotice ++ r := by
  refine ⟨rfl, rfl, mdHeader t, [], ?_⟩
  simp [runPipeline, fetch_crypto_news, generate_markdown, filterArticles, parseFeed]

/-- Claim C6: on any network error (connection failure, timeout, or non-2xx
HTTP status) the fetch stage returns zero items (there is no retry: the
pipeline consumes a single fetch outcome), and the run continues to produce
a digest document whose body contains the "no articles" notice. -/
theorem claim_c6 (e : NetError) (t : KstTime) :
    fetch_crypto_news (FetchOutcome.failure e) = [] ∧
    ∃ l r, (runPipeline (FetchOutcome.failure e) t).2 = l ++ noArticlesNotice ++ r := by
  refine ⟨rfl, mdHeader t, [], ?_⟩
  simp [runPipeline, fetch_crypto_news, generate_markdown]

/-- Claim C7: for every zone-local (UTC+9) timestamp, the day-period label
is "Morning" iff the hour-of-day is below 12 (else "Evening"), and the
output filename is `{YYYY-MM-DD}-{period}-Brief.md` built from the
zone-local calendar date; in particular 09:30 on 2024-03-01 gives
"2024-03-01-Morning-Brief.md" and 18:00 gives "2024-03-01-Evening-Brief.md". -/
theorem claim_c7 (t : KstTime) (arts : List MatchedArticle) :
    (period t = "Morning".data ↔ t.hour < 12) ∧
    (period t = "Evening".data ↔ ¬t.hour < 12) ∧
    (generate_markdown arts t).1 = date_str t ++ "-".data ++ period t ++ "-Brief.md".data ∧
    filename ⟨2024, 3, 1, 9, 30⟩ = "2024-03-01-Morning-Brief.md".data ∧
    filename ⟨2024, 3, 1, 18, 0⟩ = "2024-03-01-Evening-Brief.md".data := by
  refine ⟨?_, ?_, rfl, by decide, by decide⟩
  · constructor
    · intro hper
      by_contra hlt
      rw [period, if_neg hlt] at hper
      exact absurd hper (by decide)
    · intro hlt
      rw [period, if_pos hlt]
  · constructor
    · intro hper hlt
      rw [period, if_pos hlt] at hper
      exact absurd hper (by decide)
    · intro hlt
      rw [period, if_neg hlt]

theorem splitLines_ne_nil (s : List Char) : splitLines s ≠ [] := by
  cases s with
  | nil => simp [splitLines]
  | cons c t =>
    cases h : splitLines t with
    | nil => simp [splitLines, h]
    | cons l ls =>
      simp only [splitLines, h]
      split <;> simp

theorem splitLines_newline (s : List Char) : splitLines ('\n' :: s) = [] :: splitLines s := by
  cases h : splitLines s with
  | nil => exact absurd h (splitLines_ne_nil s)
  | cons l ls => simp [splitLines, h]

theorem splitLines_append (a s : List Char) (l : List Char) (ls : List (List Char))
    (ha : ∀ c ∈ a, c ≠ '\n') (hs : splitLines s = l :: ls) :
    splitLines (a ++ s) = (a ++ l) :: ls := by
  induction a with
  | nil => simpa using hs
  | cons c cs ih =>
    have hc : c ≠ '\n' := ha c (by simp)
    have ih' := ih (fun d hd => ha d (by simp [hd]))
    rw [List.cons_append]
    simp only [splitLines, ih']
    simp [hc]

theorem noH2_nil : noH2 [] := by
  intro l hl
  simp [splitLines] at hl
  subst hl
  rfl

theorem noH2_newline {s : List Char} (h : noH2 s) : noH2 ('\n' :: s) := by
  intro l hl
  rw [splitLines_newline] at hl
  rcases List.mem_cons.mp hl with rfl | hl'
  · rfl
  · exact h l hl'

theorem safeAtomB_spec (a : List Char) (h : safeAtomB a = true) (x : List Char) :
    isPre h2pat (a ++ x) = false := by
  by_contra hc
  have htrue : isPre h2pat (a ++ x) = true := by
    cases hv : isPre h2pat (a ++ x)
    · exact absurd hv hc
    · rfl
  obtain ⟨r, hr⟩ := (isPre_iff _ _).mp htrue
  have hpat : h2pat = '#' :: '#' :: ' ' :: [] := rfl
  rw [hpat] at hr
  cases a with
  | nil => simp [safeAtomB] at h
  | cons c1 a1 =>
    cases a1 with
    | nil =>
      simp only [List.cons_append, List.nil_append, List.cons.injEq] at hr
      simp [safeAtomB, hr.1] at h
    | cons c2 a2 =>
      cases a2 with
      | nil =>
        simp only [List.cons_append, List.nil_append, List.cons.injEq] at hr
        simp [safeAtomB, hr.1, hr.2.1] at h
      | cons c3 a3 =>
        simp only [List.cons_append, List.cons.injEq] at hr
        simp [safeAtomB, hr.1, hr.2.1, hr.2.2.1] at h

theorem noH2_prepend {a s : List Char} (ha : ∀ c ∈ a, c ≠ '\n')
    (hsafe : safeAtomB a = true) (hs : noH2 s) : noH2 (a ++ s) := by
  cases h : splitLines s with
  | nil => exact absurd h (splitLines_ne_nil s)
  | cons l ls =>
    intro line hline
    rw [splitLines_append a s l ls ha h] at hline
    rcases List.mem_cons.mp hline with rfl | hl'
    · exact safeAtomB_spec a hsafe l
    · exact hs line (by rw [h]; exact List.mem_cons_of_mem _ hl')

theorem digitChar_mem (d : Nat) (h : d < 10) : digitChar d ∈ "0123456789".data := by
  interval_cases d <;> decide

theorem natCharsAux_mem (fuel n : Nat) : ∀ c ∈ natCharsAux fuel n, c ∈ "0123456789".data := by
  induction fuel generalizing n with
  | zero => simp [natCharsAux]
  | succ f ih =>
    intro c hc
    rw [natCharsAux] at hc
    split at hc
    · next hn =>
      simp only [List.mem_singleton] at hc
      subst hc
      exact digitChar_mem n hn
    · next hn =>
      rcases List.mem_append.mp hc with h1 | h2
      · exact ih (n / 10) c h1
      · simp only [List.mem_singleton] at h2
        subst h2
        exact digitChar_mem (n % 10) (Nat.mod_lt n (by omega))

theorem natChars_mem (n : Nat) : ∀ c ∈ natChars n, c ∈ "0123456789".data :=
  natCharsAux_mem (n + 1) n

theorem fmt2_mem (n : Nat) : ∀ c ∈ fmt2 n, c ∈ "0123456789".data := by
  intro c hc
  simp only [fmt2, padZero] at hc
  rcases List.mem_append.mp hc with h | h
  · rw [List.eq_of_mem_replicate h]
    decide
  · exact natChars_mem n c h

theorem fmt4_mem (n : Nat) : ∀ c ∈ fmt4 n, c ∈ "0123456789".data := by
  intro c hc
  simp only [fmt4, padZero] at hc
  rcases List.mem_append.mp hc with h | h
  · rw [List.eq_of_mem_replicate h]
    decide
  · exact natChars_mem n c h

theorem digit_char_props {c : Char} (h : c ∈ "0123456789".data) : c ≠ '\n' ∧ c ≠ '#' := by
  have h' : c ∈ ['0', '1', '2', '3', '4', '5', '6', '7', '8', '9'] := h
  fin_cases h' <;> exact ⟨by decide, by decide⟩

theorem date_str_noNL (t : KstTime) : ∀ c ∈ date_str t, c ≠ '\n' := by
  intro c hc
  simp only [date_str, List.append_assoc, List.mem_append] at hc
  rcases hc with h | h | h | h | h
  · exact (digit_char_props (fmt4_mem t.year c h)).1
  · have h' : c ∈ ['-'] := h
    simp at h'
    subst h'
    decide
  · exact (digit_char_props (fmt2_mem t.month c h)).1
  · have h' : c ∈ ['-'] := h
    simp at h'
    subst h'
    decide
  · exact (digit_char_props (fmt2_mem t.day c h)).1

theorem time_str_noNL (t : KstTime) : ∀ c ∈ time_str t, c ≠ '\n' := by
  intro c hc
  simp only [time_str, List.append_assoc, List.mem_append] at hc
  rcases hc with h | h | h
  · exact (digit_char_props (fmt2_mem t.hour c h)).1
  · have h' : c ∈ [':'] := h
    simp at h'
    subst h'
    decide
  · exact (digit_char_props (fmt2_mem t.minute c h)).1

theorem period_noNL (t : KstTime) : ∀ c ∈ period t, c ≠ '\n' := by
  unfold period
  split
  · decide
  · decide

theorem safeAtomB_cons {c : Char} (h : c ≠ '#') (l : List Char) :
    safeAtomB (c :: l) = true := by
  cases l with
  | nil => simp [safeAtomB, h]
  | cons c2 l2 =>
    cases l2 with
    | nil => simp [safeAtomB, h]
    | cons c3 l3 => simp [safeAtomB, h]

theorem padZero_head (w : Nat) (s : List Char) (hw : 0 < w) :
    ∃ c cs, padZero w s = c :: cs := by
  cases h : padZero w s with
  | nil =>
    have hlen : (padZero w s).length = 0 := by rw [h]; rfl
    rw [padZero, List.length_append, List.length_replicate] at hlen
    omega
  | cons c cs => exact ⟨c, cs, rfl⟩

theorem date_str_safe (t : KstTime) : safeAtomB (date_str t) = true := by
  obtain ⟨c, cs, hf⟩ := padZero_head 4 (natChars t.year) (by omega)
  have hc : c ∈ fmt4 t.year := by
    rw [show fmt4 t.year = c :: cs from hf]
    simp
  have hne : c ≠ '#' := (digit_char_props (fmt4_mem t.year c hc)).2
  unfold date_str
  rw [show fmt4 t.year = c :: cs from hf]
  simp only [List.append_assoc, List.cons_append]
  exact safeAtomB_cons hne _

theorem time_str_safe (t : KstTime) : safeAtomB (time_str t) = true := by
  obtain ⟨c, cs, hf⟩ := padZero_head 2 (natChars t.hour) (by omega)
  have hc : c ∈ fmt2 t.hour := by
    rw [show fmt2 t.hour = c :: cs from hf]
    simp
  have hne : c ≠ '#' := (digit_char_props (fmt2_mem t.hour c hc)).2
  unfold time_str
  rw [show fmt2 t.hour = c :: cs from hf]
  simp only [List.append_assoc, List.cons_append]
  exact safeAtomB_cons hne _

theorem period_safe (t : KstTime) : safeAtomB (period t) = true := by
  unfold period
  split
  · decide
  · decide

theorem cons_append_reassoc {C l p r s : List Char}
    (h : '\n' :: s = (l ++ p) ++ r) :
    '\n' :: ((C ++ ['\n']) ++ s) = ((('\n' :: C) ++ l) ++ p) ++ r := by
  have h2 : ('\n' :: C) ++ ('\n' :: s) = ((('\n' :: C) ++ l) ++ p) ++ r := by
    rw [h]
    simp only [List.append_assoc]
  calc '\n' :: ((C ++ ['\n']) ++ s)
      = ('\n' :: C) ++ ('\n' :: s) := by
        simp only [List.append_assoc, List.cons_append, List.singleton_append,
          List.nil_append]
    _ = ((('\n' :: C) ++ l) ++ p) ++ r := h2

theorem append_nl_reassoc {M l p r s : List Char}
    (h : '\n' :: s = (l ++ p) ++ r) :
    (M ++ ['\n']) ++ s = ((M ++ l) ++ p) ++ r := by
  have h2 : M ++ ('\n' :: s) = ((M ++ l) ++ p) ++ r := by
    rw [h]
    simp only [List.append_assoc]
  calc (M ++ ['\n']) ++ s
      = M ++ ('\n' :: s) := by
        simp only [List.append_assoc, List.singleton_append, List.nil_append]
    _ = ((M ++ l) ++ p) ++ r := h2

set_option maxRecDepth 8000 in
theorem blocks_heading (arts : List MatchedArticle) :
    ∀ (j i : Nat) (hi : i < arts.length),
    ∃ l r, '\n' :: articleBlocks j arts =
      l ++ ('\n' :: (h2pat ++ natChars (j + i) ++ ". ".data ++ (arts.get ⟨i, hi⟩).title)) ++ r := by
  induction arts with
  | nil =>
    intro j i hi
    simp at hi
  | cons a as ih =>
    intro j i hi
    cases i with
    | zero =>
      refine ⟨[], nl ++ nl ++
        "- **관련 키워드**: #".data ++ joinSep " #".data a.keywords ++ nl ++
        "- **발행일**: ".data ++ a.date ++ nl ++
        "- **요약**: ".data ++ a.desc ++ nl ++ nl ++
        "> [🔗 원문 기사 바로가기](".data ++ a.link ++ ")".data ++ nl ++ nl ++
        "---".data ++ nl ++ articleBlocks (j + 1) as, ?_⟩
      rw [show ((a :: as).get ⟨0, hi⟩).title = a.title from rfl]
      show '\n' :: articleBlocks j (a :: as) =
        '\n' :: ((h2pat ++ natChars (j + 0) ++ ". ".data ++ a.title) ++
          (nl ++ nl ++
           "- **관련 키워드**: #".data ++ joinSep " #".data a.keywords ++ nl ++
           "- **발행일**: ".data ++ a.date ++ nl ++
           "- **요약**: ".data ++ a.desc ++ nl ++ nl ++
           "> [🔗 원문 기사 바로가기](".data ++ a.link ++ ")".data ++ nl ++ nl ++
           "---".data ++ nl ++ articleBlocks (j + 1) as))
      refine congrArg (List.cons '\n') ?_
      simp only [articleBlocks, articleBlock, h2pat, nl, Nat.add_zero,
        List.append_assoc, List.singleton_append]
    | succ i' =>
      obtain ⟨l', r', h'⟩ := ih (j + 1) i' (by simpa using hi)
      have hidx : j + 1 + i' = j + (i' + 1) := by omega
      rw [hidx] at h'
      exact ⟨_, _, cons_append_reassoc h'⟩

theorem noH2_cons_safe {c : Char} {s : List Char} (h1 : c ≠ '\n') (h2 : c ≠ '#')
    (hs : noH2 s) : noH2 (c :: s) := by
  have ha : ∀ d ∈ [c], d ≠ '\n' := by
    intro d hd
    simp at hd
    subst hd
    exact h1
  exact noH2_prepend ha (safeAtomB_cons h2 []) hs

theorem noH2_hash_sp {s : List Char} (hs : noH2 s) : noH2 ('#' :: ' ' :: s) :=
  noH2_prepend (a := ['#', ' ']) (by decide) (by decide) hs

theorem noH2_3hash {s : List Char} (hs : noH2 s) : noH2 ('#' :: '#' :: '#' :: s) :=
  noH2_prepend (a := ['#', '#', '#']) (by decide) (by decide) hs

theorem noH2_drop_nil {s : List Char} (h : noH2 s) : noH2 ([] ++ s) := h

set_option maxRecDepth 8000 in
set_option maxHeartbeats 4000000 in
/-- Claim C8: when the filtered article list is empty, the rendered body
contains the "no articles" notice line and no line of the body begins with
the level-2 heading marker (so there are no numbered article headings);
when it is non-empty, for every position `i` the body contains a numbered
level-2 heading `## {i+1}. {title}` at the start of a line for the `i`-th
article, in filter-stage order. -/
theorem claim_c8 (arts : List MatchedArticle) (t : KstTime) :
    (arts = [] →
      (∃ l r, (generate_markdown arts t).2 = l ++ noArticlesNotice ++ r) ∧
      ∀ line ∈ splitLines (generate_markdown arts t).2, isPre h2pat line = false) ∧
    (∀ i (hi : i < arts.length), ∃ l r,
      (generate_markdown arts t).2 =
        l ++ ('\n' :: (h2pat ++ natChars (i + 1) ++ ". ".data ++ (arts.get ⟨i, hi⟩).title)) ++ r) := by
  constructor
  · rintro rfl
    have hbody : (generate_markdown [] t).2 = mdHeader t ++ noArticlesNotice := by
      simp [generate_markdown]
    constructor
    · exact ⟨mdHeader t, [], by rw [hbody, List.append_nil]⟩
    · rw [hbody]
      show noH2 (mdHeader t ++ noArticlesNotice)
      simp only [mdHeader, noArticlesNotice, nl, List.append_assoc, List.singleton_append]
      refine noH2_prepend (by decide) (by decide) ?_
      refine noH2_newline ?_
      refine noH2_prepend (by decide) (by decide) ?_
      refine noH2_prepend (date_str_noNL t) (date_str_safe t) ?_
      refine noH2_cons_safe (by decide) (by decide) ?_
      refine noH2_prepend (period_noNL t) (period_safe t) ?_
      refine noH2_prepend (by decide) (by decide) ?_
      refine noH2_newline ?_
      refine noH2_prepend (by decide) (by decide) ?_
      refine noH2_prepend (date_str_noNL t) (date_str_safe t) ?_
      refine noH2_newline ?_
      refine noH2_prepend (by decide) (by decide) ?_
      refine noH2_prepend (time_str_noNL t) (time_str_safe t) ?_
      refine noH2_newline ?_
      refine noH2_prepend (by decide) (by decide) ?_
      refine noH2_newline ?_
      refine noH2_prepend (by decide) (by decide) ?_
      refine noH2_newline ?_
      refine noH2_prepend (by decide) (by decide) ?_
      refine noH2_newline ?_
      refine noH2_prepend (by decide) (by decide) ?_
      refine noH2_newline ?_
      refine noH2_prepend (by decide) (by decide) ?_
      refine noH2_newline ?_
      refine noH2_newline ?_
      refine noH2_drop_nil ?_
      refine noH2_prepend (by decide) (by decide) ?_
      refine noH2_prepend (date_str_noNL t) (date_str_safe t) ?_
      refine noH2_cons_safe (by decide) (by decide) ?_
      refine noH2_prepend (period_noNL t) (period_safe t) ?_
      refine noH2_prepend (by decide) (by decide) ?_
      refine noH2_newline ?_
      refine noH2_newline ?_
      refine noH2_drop_nil ?_
      refine noH2_prepend (by decide) (by decide) ?_
      refine noH2_prepend (time_str_noNL t) (time_str_safe t) ?_
      refine noH2_prepend (by decide) (by decide) ?_
      refine noH2_prepend (by decide) (by decide) ?_
      refine noH2_prepend (by decide) (by decide) ?_
      refine noH2_newline ?_
      refine noH2_newline ?_
      refine noH2_drop_nil ?_
      refine noH2_prepend (by decide) (by decide) ?_
      refine noH2_newline ?_
      refine noH2_newline ?_
      refine noH2_newline ?_
      refine noH2_prepend (by decide) (by decide) ?_
      refine noH2_newline ?_
      exact noH2_nil
  · intro i hi
    cases arts with
    | nil => simp at hi
    | cons a as =>
      obtain ⟨l', r', h'⟩ := blocks_heading (a :: as) 1 i hi
      have hidx : 1 + i = i + 1 := by omega
      rw [hidx] at h'
      exact ⟨_, _, append_nl_reassoc h'⟩

set_option maxRecDepth 8000 in
theorem claim_c8_witness :
    (∃ l r, (generate_markdown [] ⟨2024, 3, 1, 9, 30⟩).2 = l ++ noArticlesNotice ++ r) ∧
    (∃ l r, (generate_markdown
        [⟨"BTC hits new high".data, "#".data, [], [], ["BTC".data]⟩] ⟨2024, 3, 1, 9, 30⟩).2 =
      l ++ ('\n' :: (h2pat ++ natChars 1 ++ ". ".data ++ "BTC hits new high".data)) ++ r) :=
  ⟨((claim_c8 [] ⟨2024, 3, 1, 9, 30⟩).1 rfl).1,
   (claim_c8 [⟨"BTC hits new high".data, "#".data, [], [], ["BTC".data]⟩]
      ⟨2024, 3, 1, 9, 30⟩).2 0 (by decide)⟩

set_option maxRecDepth 8000 in
theorem mdHeader_concrete_value :
    mdHeader ⟨2024, 3, 1, 9, 30⟩ =
      ("---\ntitle: \"2024-03-01 Morning Crypto Briefing\"\ndate: 2024-03-01\ntime: 09:30\ntags:\n  - news\n  - crypto\n  - automation\n---\n\n# 📅 2024-03-01 Morning 가상화폐 주요 뉴스\n\n> **자동화 봇 메시지**: 현재 시각 09:30 기준, **Bitcoin, Ethereum, Solana, BTC, ETH, SOL** 관련 주요 기사를 요약했습니다.\n\n---\n\n").data := by
  decide

set_option maxRecDepth 8000 in
theorem articleBlock_concrete_value :
    articleBlock 1 ⟨"T".data, "L".data, "D".data, "P".data, ["BTC".data, "ETH".data]⟩ =
      ("## 1. T\n\n- **관련 키워드**: #BTC #ETH\n- **발행일**: P\n- **요약**: D\n\n> [🔗 원문 기사 바로가기](L)\n\n---\n").data := by
  decide

end CriptoNews
